import Mathlib

/-!
Shallow embedding of `poc_python_autogen.py`.

Python strings are modelled as `List Char`; `str.split(sep)` (non-empty
separator) as `pySplit`, `str.strip()` as `strip`, and the substring test
`sep in s` as `containsSub`.  Fallible Python code (functions that may raise)
is modelled with `Except String`.  External facilities (the OpenRouter HTTP
endpoint, CPython's `ast.parse`, the on-disk filesystem) are parameters:
oracles passed to the embedded functions, exactly at the call boundaries the
source uses them.
-/

namespace AutoGen

abbrev Str := List Char

/-- ASCII whitespace stripped by Python's `str.strip()`. -/
def pyIsSpace (c : Char) : Bool :=
  c = ' ' || c = '\t' || c = '\n' || c = '\r' || c = '\x0b' || c = '\x0c'

/-- Python `str.lstrip()`. -/
def lstrip (s : Str) : Str := s.dropWhile pyIsSpace

/-- Python `str.rstrip()`. -/
def rstrip (s : Str) : Str := (s.reverse.dropWhile pyIsSpace).reverse

/-- Python `str.strip()`. -/
def strip (s : Str) : Str := rstrip (lstrip s)

/-- First occurrence of `sep` in a string: `some (pre, suf)` when the string
is `pre ++ sep ++ suf` with `pre` shortest, `none` when `sep` does not occur. -/
def splitFirst (sep : Str) : Str → Option (Str × Str)
  | [] => none
  | c :: rest =>
    if sep.isPrefixOf (c :: rest) then some ([], (c :: rest).drop sep.length)
    else
      match splitFirst sep rest with
      | none => none
      | some (pre, suf) => some (c :: pre, suf)

/-- Python's substring test `sep in s` (for non-empty `sep`). -/
def containsSub (sep s : Str) : Bool := (splitFirst sep s).isSome

/-- Worker for `pySplit`: `k` counts separator characters still to be skipped
after a match was emitted, `acc` accumulates the current segment reversed. -/
def pySplitAux (sep : Str) : Str → Nat → Str → List Str
  | [], _, acc => [acc.reverse]
  | _ :: rest, k + 1, acc => pySplitAux sep rest k acc
  | c :: rest, 0, acc =>
    if sep.isPrefixOf (c :: rest) then
      acc.reverse :: pySplitAux sep rest (sep.length - 1) []
    else
      pySplitAux sep rest 0 (c :: acc)

/-- Python `s.split(sep)` for a non-empty separator: leftmost,
non-overlapping matches. -/
def pySplit (sep s : Str) : List Str := pySplitAux sep s 0 []

/-- The text before the first occurrence of `sep` (the whole string when
`sep` does not occur); this is `s.split(sep)[0]` in Python. -/
def firstPre (sep s : Str) : Str :=
  match splitFirst sep s with
  | none => s
  | some (pre, _) => pre

/-- The opening fence marker `"```python"` from
`CodeProject.extract_code_from_response`. -/
def fencePy : Str := ("```python").data

/-- The closing fence marker `"```"`. -/
def fenceC : Str := ("```").data

/-- `CodeProject.extract_code_from_response`: keeps the segments of
`response.split("```python")` that are non-blank and contain `"```"`; raises
`ValueError("No code was generated")` when none remain, otherwise returns
`code_blocks[0].split("```")[0].strip()`. -/
def extract_code_from_response (response : Str) : Except String Str :=
  match (pySplit fencePy response).filter
      (fun block => !(strip block).isEmpty && containsSub fenceC block) with
  | [] => Except.error "No code was generated"
  | b :: _ => Except.ok (strip ((pySplit fenceC b).headD []))

/-- A successful `splitFirst` decomposes the string around the separator. -/
theorem splitFirst_decomp {sep : Str} :
    ∀ {s pre suf : Str}, splitFirst sep s = some (pre, suf) → s = pre ++ sep ++ suf := by
  intro s
  induction s with
  | nil => intro pre suf h; simp [splitFirst] at h
  | cons c rest ih =>
    intro pre suf h
    by_cases hp : sep.isPrefixOf (c :: rest)
    · simp only [splitFirst, if_pos hp] at h
      obtain ⟨t, ht⟩ := List.isPrefixOf_iff_prefix.mp hp
      injection h with h
      obtain ⟨h1, h2⟩ := Prod.mk.injEq .. ▸ h
      subst h1
      rw [← h2, ← ht, List.drop_left]
      simp
    · simp only [splitFirst, if_neg hp] at h
      cases hrest : splitFirst sep rest with
      | none => rw [hrest] at h; simp at h
      | some q =>
        obtain ⟨pre', suf'⟩ := q
        rw [hrest] at h
        simp only [Option.some.injEq, Prod.mk.injEq] at h
        obtain ⟨h1, h2⟩ := h
        subst h2
        rw [← h1, ih hrest]
        simp

/-- `splitFirst` finds the leftmost occurrence of the separator. -/
theorem splitFirst_min {sep : Str} :
    ∀ {s pre suf : Str}, splitFirst sep s = some (pre, suf) →
      ∀ u v, s = u ++ sep ++ v → pre.length ≤ u.length := by
  intro s
  induction s with
  | nil => intro pre suf h; simp [splitFirst] at h
  | cons c rest ih =>
    intro pre suf h u v huv
    by_cases hp : sep.isPrefixOf (c :: rest)
    · simp only [splitFirst, if_pos hp] at h
      injection h with h
      obtain ⟨h1, _⟩ := Prod.mk.injEq .. ▸ h
      subst h1
      exact Nat.zero_le _
    · simp only [splitFirst, if_neg hp] at h
      cases hrest : splitFirst sep rest with
      | none => rw [hrest] at h; simp at h
      | some q =>
        obtain ⟨pre', suf'⟩ := q
        rw [hrest] at h
        simp only [Option.some.injEq, Prod.mk.injEq] at h
        obtain ⟨h1, _⟩ := h
        cases u with
        | nil =>
          exfalso
          apply hp
          apply List.isPrefixOf_iff_prefix.mpr
          exact ⟨v, by simpa using huv.symm⟩
        | cons c' u' =>
          simp only [List.cons_append, List.cons.injEq] at huv
          have := ih hrest u' v huv.2
          rw [← h1]
          simpa using Nat.succ_le_succ this

/-- When the string is an occurrence context `u ++ sep ++ v`, `splitFirst`
finds some occurrence. -/
theorem splitFirst_isSome_of_eq_append {sep : Str} (hsep : sep ≠ []) :
    ∀ (u v : Str), (splitFirst sep (u ++ sep ++ v)).isSome = true := by
  intro u
  induction u with
  | nil =>
    intro v
    have hp : sep.isPrefixOf (sep ++ v) := List.isPrefixOf_iff_prefix.mpr ⟨v, rfl⟩
    cases hs : sep ++ v with
    | nil =>
      exfalso
      exact hsep (List.append_eq_nil.mp hs).1
    | cons c rest =>
      simp only [List.nil_append, hs, splitFirst, if_pos (hs ▸ hp)]
      rfl
  | cons c u' ih =>
    intro v
    rw [show (c :: u') ++ sep ++ v = c :: (u' ++ sep ++ v) from by simp]
    by_cases hp : sep.isPrefixOf (c :: (u' ++ sep ++ v)) = true
    · simp only [splitFirst]
      rw [if_pos hp]
      rfl
    · simp only [splitFirst]
      rw [if_neg hp]
      have := ih v
      cases hrest : splitFirst sep (u' ++ sep ++ v) with
      | none => rw [hrest] at this; simp at this
      | some q => obtain ⟨a, b⟩ := q; rfl

/-- The prefix returned by `splitFirst` contains no occurrence of the
separator. -/
theorem splitFirst_pre_none {sep s pre suf : Str} (hsep : sep ≠ [])
    (h : splitFirst sep s = some (pre, suf)) : splitFirst sep pre = none := by
  cases hq : splitFirst sep pre with
  | none => rfl
  | some q =>
    exfalso
    obtain ⟨p2, s2⟩ := q
    have hd : pre = p2 ++ sep ++ s2 := splitFirst_decomp hq
    have hs : s = p2 ++ sep ++ (s2 ++ sep ++ suf) := by
      rw [splitFirst_decomp h, hd]; simp
    have hmin := splitFirst_min h p2 (s2 ++ sep ++ suf) hs
    have : 0 < sep.length := List.length_pos.mpr hsep
    have : p2.length < pre.length := by
      rw [hd]; simp; omega
    omega

/-- `containsSub` is the substring relation, for a non-empty separator. -/
theorem containsSub_iff {sep s : Str} (hsep : sep ≠ []) :
    containsSub sep s = true ↔ ∃ u v, s = u ++ sep ++ v := by
  constructor
  · intro h
    rw [containsSub, Option.isSome_iff_exists] at h
    obtain ⟨q, hq⟩ := h
    obtain ⟨pre, suf⟩ := q
    exact ⟨pre, suf, splitFirst_decomp hq⟩
  · rintro ⟨u, v, rfl⟩
    exact splitFirst_isSome_of_eq_append hsep u v

/-- `splitFirst` is determined by exhibiting the leftmost occurrence. -/
theorem splitFirst_eq_of_min {sep u v s : Str} (hsep : sep ≠ [])
    (hs : s = u ++ sep ++ v)
    (hmin : ∀ u' v', s = u' ++ sep ++ v' → u.length ≤ u'.length) :
    splitFirst sep s = some (u, v) := by
  have hsome : (splitFirst sep s).isSome = true := by
    rw [hs]; exact splitFirst_isSome_of_eq_append hsep u v
  rw [Option.isSome_iff_exists] at hsome
  obtain ⟨q, hq⟩ := hsome
  obtain ⟨pre, suf⟩ := q
  have hd : s = pre ++ sep ++ suf := splitFirst_decomp hq
  have h1 : pre.length ≤ u.length := splitFirst_min hq u v hs
  have h2 : u.length ≤ pre.length := hmin pre suf hd
  have hlen : u.length = pre.length := Nat.le_antisymm h2 h1
  have hu : u = pre := by
    have t1 : s.take u.length = u := by rw [hs]; simp [List.take_left']
    have t2 : s.take pre.length = pre := by rw [hd]; simp [List.take_left']
    rw [← t1, hlen, t2]
  subst hu
  have : sep ++ v = sep ++ suf := by
    have := hs.symm.trans hd
    rw [List.append_assoc, List.append_assoc] at this
    exact List.append_cancel_left this
  have : v = suf := List.append_cancel_left this
  rw [hq, this]

/-- Skipping `k` characters with the skip counter is dropping them. -/
theorem pySplitAux_skip {sep : Str} :
    ∀ (s : Str) (k : Nat) (acc : Str), k ≤ s.length →
      pySplitAux sep s k acc = pySplitAux sep (s.drop k) 0 acc := by
  intro s
  induction s with
  | nil =>
    intro k acc hk
    have : k = 0 := by simpa using hk
    subst this
    rfl
  | cons c rest ih =>
    intro k acc hk
    cases k with
    | zero => rfl
    | succ j =>
      have : pySplitAux sep (c :: rest) (j + 1) acc = pySplitAux sep rest j acc := rfl
      rw [this, ih j acc (by simpa using hk), List.drop_succ_cons]

/-- `pySplitAux` on a string with no separator occurrence yields one segment. -/
theorem pySplitAux_none {sep : Str} :
    ∀ (s acc : Str), splitFirst sep s = none →
      pySplitAux sep s 0 acc = [acc.reverse ++ s] := by
  intro s
  induction s with
  | nil => intro acc _; simp [pySplitAux]
  | cons c rest ih =>
    intro acc h
    by_cases hp : sep.isPrefixOf (c :: rest) = true
    · exfalso
      simp only [splitFirst] at h
      rw [if_pos hp] at h
      exact Option.some_ne_none _ h
    · have hrest : splitFirst sep rest = none := by
        simp only [splitFirst] at h
        rw [if_neg hp] at h
        cases hq : splitFirst sep rest with
        | none => rfl
        | some q => obtain ⟨a, b⟩ := q; rw [hq] at h; simp at h
      have step : pySplitAux sep (c :: rest) 0 acc = pySplitAux sep rest 0 (c :: acc) := by
        simp only [pySplitAux]
        rw [if_neg hp]
      rw [step, ih (c :: acc) hrest]
      simp

/-- `pySplitAux` at the first separator occurrence emits the segment before
it and continues after it. -/
theorem pySplitAux_some {sep : Str} (hsep : sep ≠ []) :
    ∀ (s pre suf acc : Str), splitFirst sep s = some (pre, suf) →
      pySplitAux sep s 0 acc = (acc.reverse ++ pre) :: pySplitAux sep suf 0 [] := by
  intro s
  induction s with
  | nil => intro pre suf acc h; simp [splitFirst] at h
  | cons c rest ih =>
    intro pre suf acc h
    by_cases hp : sep.isPrefixOf (c :: rest) = true
    · simp only [splitFirst] at h
      rw [if_pos hp] at h
      injection h with h
      obtain ⟨h1, h2⟩ := Prod.mk.injEq .. ▸ h
      subst h1
      obtain ⟨t, ht⟩ := List.isPrefixOf_iff_prefix.mp hp
      have hlen : sep.length ≤ rest.length + 1 := by
        have := congrArg List.length ht
        simp at this
        omega
      have hpos : 0 < sep.length := List.length_pos.mpr hsep
      have step : pySplitAux sep (c :: rest) 0 acc
          = acc.reverse :: pySplitAux sep rest (sep.length - 1) [] := by
        simp only [pySplitAux]
        rw [if_pos hp]
      have hdrop : rest.drop (sep.length - 1) = (c :: rest).drop sep.length := by
        cases hsl : sep.length with
        | zero => omega
        | succ m => simp
      rw [step, pySplitAux_skip rest (sep.length - 1) [] (by omega), hdrop, h2]
      simp
    · simp only [splitFirst] at h
      rw [if_neg hp] at h
      cases hrest : splitFirst sep rest with
      | none => rw [hrest] at h; simp at h
      | some q =>
        obtain ⟨pre', suf'⟩ := q
        rw [hrest] at h
        simp only [Option.some.injEq, Prod.mk.injEq] at h
        obtain ⟨h1, h2⟩ := h
        subst h2
        have step : pySplitAux sep (c :: rest) 0 acc = pySplitAux sep rest 0 (c :: acc) := by
          simp only [pySplitAux]
          rw [if_neg hp]
        rw [step, ih pre' suf' (c :: acc) hrest, ← h1]
        simp

/-- `split` on a string without the separator returns the whole string. -/
theorem pySplit_none {sep s : Str} (h : splitFirst sep s = none) :
    pySplit sep s = [s] := by
  rw [pySplit, pySplitAux_none s [] h]
  rfl

/-- `split` at the first separator occurrence: the segment before it, then
the split of the remainder. -/
theorem pySplit_some {sep s pre suf : Str} (hsep : sep ≠ [])
    (h : splitFirst sep s = some (pre, suf)) :
    pySplit sep s = pre :: pySplit sep suf := by
  rw [pySplit, pySplitAux_some hsep s pre suf [] h]
  rfl

/-- `s.split(sep)[0]` is the text before the first separator occurrence. -/
theorem pySplit_headD {sep s : Str} (hsep : sep ≠ []) :
    (pySplit sep s).headD [] = firstPre sep s := by
  cases h : splitFirst sep s with
  | none => rw [pySplit_none h, firstPre, h]; rfl
  | some q =>
    obtain ⟨pre, suf⟩ := q
    rw [pySplit_some hsep h, firstPre, h]
    rfl

/-- The first segment of a split contains no separator occurrence. -/
theorem containsSub_firstPre {sep s : Str} (hsep : sep ≠ []) :
    containsSub sep (firstPre sep s) = false := by
  cases h : splitFirst sep s with
  | none => rw [firstPre, h, containsSub, h]; rfl
  | some q =>
    obtain ⟨pre, suf⟩ := q
    rw [firstPre, h, containsSub, splitFirst_pre_none hsep h]
    rfl

/-- Stripping removes only whitespace from the two ends: the original string
is whitespace, then the stripped string, then whitespace. -/
theorem strip_decomp (s : Str) :
    ∃ w1 w2, s = w1 ++ strip s ++ w2 ∧
      (∀ c ∈ w1, pyIsSpace c = true) ∧ (∀ c ∈ w2, pyIsSpace c = true) := by
  refine ⟨s.takeWhile pyIsSpace, ((lstrip s).reverse.takeWhile pyIsSpace).reverse,
    ?_, ?_, ?_⟩
  · conv_lhs => rw [← List.takeWhile_append_dropWhile (p := pyIsSpace) (l := s)]
    rw [List.append_assoc]
    congr 1
    conv_lhs => rw [show s.dropWhile pyIsSpace = lstrip s from rfl,
      ← List.reverse_reverse (lstrip s),
      ← List.takeWhile_append_dropWhile (p := pyIsSpace) (l := (lstrip s).reverse)]
    rw [List.reverse_append]
    rfl
  · intro c hc
    exact List.mem_takeWhile_imp hc
  · intro c hc
    rw [List.mem_reverse] at hc
    exact List.mem_takeWhile_imp hc

/-- A separator absent from a string is absent from its stripped form. -/
theorem containsSub_strip {sep s : Str} (hsep : sep ≠ [])
    (h : containsSub sep s = false) : containsSub sep (strip s) = false := by
  by_contra hb
  rw [Bool.not_eq_false, containsSub_iff hsep] at hb
  obtain ⟨u, v, huv⟩ := hb
  obtain ⟨w1, w2, hs, _, _⟩ := strip_decomp s
  have : s = (w1 ++ u) ++ sep ++ (v ++ w2) := by
    rw [hs, huv]; simp
  have : containsSub sep s = true := (containsSub_iff hsep).mpr ⟨w1 ++ u, v ++ w2, this⟩
  rw [h] at this
  exact Bool.false_ne_true this

/-- The first character of a stripped string is not whitespace. -/
theorem strip_head_not_space {s : Str} {c : Char}
    (h : (strip s).head? = some c) : pyIsSpace c = false := by
  have h2 : (lstrip s).head? = some c := by
    have hd : lstrip s = strip s ++ ((lstrip s).reverse.takeWhile pyIsSpace).reverse := by
      conv_lhs => rw [← List.reverse_reverse (lstrip s),
        ← List.takeWhile_append_dropWhile (p := pyIsSpace) (l := (lstrip s).reverse)]
      rw [List.reverse_append]
      rfl
    rw [hd, List.head?_append, h]
    rfl
  have := List.head?_dropWhile_not pyIsSpace s
  rw [show s.dropWhile pyIsSpace = lstrip s from rfl, h2] at this
  exact this

/-- The last character of a stripped string is not whitespace. -/
theorem strip_getLast_not_space {s : Str} {c : Char}
    (h : (strip s).getLast? = some c) : pyIsSpace c = false := by
  have h2 : ((lstrip s).reverse.dropWhile pyIsSpace).head? = some c := by
    rw [show strip s = ((lstrip s).reverse.dropWhile pyIsSpace).reverse from rfl,
      List.getLast?_reverse] at h
    exact h
  have := List.head?_dropWhile_not pyIsSpace (lstrip s).reverse
  rw [h2] at this
  exact this

/-- A string containing a non-whitespace character does not strip to empty. -/
theorem strip_ne_nil_of_mem {s : Str} {c : Char} (hc : c ∈ s)
    (hns : pyIsSpace c = false) : strip s ≠ [] := by
  intro hnil
  obtain ⟨w1, w2, hs, hw1, hw2⟩ := strip_decomp s
  rw [hnil] at hs
  rw [hs] at hc
  simp at hc
  cases hc with
  | inl h => rw [hw1 c h] at hns; simp at hns
  | inr h => rw [hw2 c h] at hns; simp at hns

/-- The error case of extraction happens exactly when the filtered block list
is empty. -/
theorem extract_error_iff_filter_nil (r : Str) :
    extract_code_from_response r = Except.error "No code was generated"
      ↔ (pySplit fencePy r).filter
          (fun block => !(strip block).isEmpty && containsSub fenceC block) = [] := by
  unfold extract_code_from_response
  cases hf : (pySplit fencePy r).filter
      (fun block => !(strip block).isEmpty && containsSub fenceC block) with
  | nil => simp
  | cons b bs => simp

/-- Claim C2: `extract_code_from_response` raises `ValueError("No code was
generated")` exactly when no segment of `response.split("```python")` is both
non-blank and contains a closing `"```"`; on every other input it returns
normally. -/
theorem c2_error_iff_no_fenced_segment (r : Str) :
    (extract_code_from_response r = Except.error "No code was generated"
      ↔ ∀ b ∈ pySplit fencePy r, strip b = [] ∨ containsSub fenceC b = false)
    ∧ ((∃ b ∈ pySplit fencePy r, strip b ≠ [] ∧ containsSub fenceC b = true)
      → ∃ out, extract_code_from_response r = Except.ok out) := by
  constructor
  · rw [extract_error_iff_filter_nil, List.filter_eq_nil_iff]
    constructor
    · intro h b hb
      have := h b hb
      simp only [Bool.and_eq_true, Bool.not_eq_true', List.isEmpty_iff, not_and] at this
      by_cases hs : strip b = []
      · exact Or.inl hs
      · right
        by_contra hcn
        rw [Bool.not_eq_false] at hcn
        exact absurd hcn (by simpa [hs] using this)
    · intro h b hb
      cases h b hb with
      | inl h1 => simp [Bool.and_eq_true, Bool.not_eq_true', List.isEmpty_iff, h1]
      | inr h1 => simp [h1]
  · rintro ⟨b, hb, h1, h2⟩
    have hmem : b ∈ (pySplit fencePy r).filter
        (fun block => !(strip block).isEmpty && containsSub fenceC block) := by
      rw [List.mem_filter]
      refine ⟨hb, ?_⟩
      simp [h1, h2, List.isEmpty_iff]
    unfold extract_code_from_response
    cases hf : (pySplit fencePy r).filter
        (fun block => !(strip block).isEmpty && containsSub fenceC block) with
    | nil => rw [hf] at hmem; simp at hmem
    | cons b0 bs => exact ⟨_, rfl⟩

/-- Claim C2 at a concrete input: a fence-free response yields the
content-missing error. -/
theorem c2_witness :
    extract_code_from_response (("print hello").data)
      = Except.error "No code was generated" :=
  (c2_error_iff_no_fenced_segment (("print hello").data)).1.mpr (by decide)

/-- If a backtick-free string is a prefix of `u ++ '`' :: w`, it ends before
the backtick. -/
theorem length_le_of_no_tick {mid z u w : Str} (hmid : ∀ c ∈ mid, c ≠ '`')
    (h : mid ++ z = u ++ ('`' :: w)) : mid.length ≤ u.length := by
  by_contra hlt
  push_neg at hlt
  have h1 : (mid ++ z)[u.length]? = mid[u.length]? := List.getElem?_append_left hlt
  have h2 : (u ++ ('`' :: w))[u.length]? = some '`' := by
    rw [List.getElem?_append_right (Nat.le_refl _)]
    simp
  rw [h, h2] at h1
  have : ('`' : Char) ∈ mid := List.getElem?_mem h1.symm
  exact hmid '`' this rfl

/-- When no `"```"` occurs before an explicit `"```python"` marker, that
marker is the first `"```python"` occurrence in the whole string. -/
theorem splitFirst_fencePy_at_boundary {a t : Str}
    (ha : containsSub fenceC a = false) :
    splitFirst fencePy (a ++ fencePy ++ t) = some (a, t) := by
  have hC : fenceC ≠ [] := by decide
  apply splitFirst_eq_of_min (show fencePy ≠ [] from by decide) rfl
  intro u v huv
  by_contra hlt
  push_neg at hlt
  obtain ⟨d, hd⟩ : ∃ d, a.length = u.length + d := ⟨a.length - u.length, by omega⟩
  have hd1 : 1 ≤ d := by omega
  have e1 : a ++ (fencePy ++ t) = u ++ (fencePy ++ v) := by
    simpa [List.append_assoc] using huv
  have ha_eq : a = u ++ (fencePy ++ v).take d := by
    have e2 : (u ++ (fencePy ++ v)).take a.length = u ++ (fencePy ++ v).take d := by
      rw [List.take_append_eq_append_take,
        List.take_of_length_le (show u.length ≤ a.length from by omega),
        show a.length - u.length = d from by omega]
    calc a = (a ++ (fencePy ++ t)).take a.length := (List.take_left' rfl).symm
      _ = (u ++ (fencePy ++ v)).take a.length := by rw [e1]
      _ = u ++ (fencePy ++ v).take d := e2
  rcases Nat.lt_or_ge d 3 with h3 | h3
  · have h9 : fencePy.length = 9 := by decide
    have hdlen : ((fencePy ++ v).take d).length = d := by
      rw [List.length_take, List.length_append]
      omega
    have e3 : (fencePy ++ v).take d ++ (fencePy ++ t) = fencePy ++ v := by
      have e4 := e1
      rw [ha_eq, List.append_assoc] at e4
      exact List.append_cancel_left e4
    have hR : (fencePy ++ v)[3]? = some 'p' := by
      rw [List.getElem?_append_left (show 3 < fencePy.length from by decide)]
      decide
    have hL : ((fencePy ++ v).take d ++ (fencePy ++ t))[3]? = (fencePy ++ t)[3 - d]? := by
      rw [List.getElem?_append_right (by omega), hdlen]
    have hL2 : (fencePy ++ t)[3 - d]? = some '`' := by
      rw [List.getElem?_append_left (show 3 - d < fencePy.length from by omega)]
      have hd12 : d = 1 ∨ d = 2 := by omega
      rcases hd12 with h | h
      · subst h
        rfl
      · subst h
        rfl
    rw [e3, hR, hL2] at hL
    simp at hL
  · have hsplit : (fencePy ++ v).take d
        = fenceC ++ ((['p', 'y', 't', 'h', 'o', 'n'] ++ v).take (d - 3)) := by
      rw [show fencePy = fenceC ++ ['p', 'y', 't', 'h', 'o', 'n'] from by decide,
        List.append_assoc, List.take_append_eq_append_take,
        List.take_of_length_le (show fenceC.length ≤ d from by
          have : fenceC.length = 3 := by decide
          omega)]
      simp only [show fenceC.length = 3 from by decide]
    have : containsSub fenceC a = true := by
      apply (containsSub_iff hC).mpr
      exact ⟨u, (['p', 'y', 't', 'h', 'o', 'n'] ++ v).take (d - 3),
        by rw [ha_eq, hsplit]; simp⟩
    rw [ha] at this
    simp at this

/-- After the marked fenced block, no further `"```python"` marker occurs
(given a backtick-free body and a marker-free remainder). -/
theorem splitFirst_fencePy_tail_none {mid rest : Str}
    (hmid : ∀ c ∈ mid, c ≠ '`')
    (hrest : containsSub fencePy (fenceC ++ rest) = false) :
    splitFirst fencePy (mid ++ fenceC ++ rest) = none := by
  cases hq : splitFirst fencePy (mid ++ fenceC ++ rest) with
  | none => rfl
  | some q =>
    exfalso
    obtain ⟨u, v⟩ := q
    have hd2 : mid ++ (fenceC ++ rest) = u ++ (fencePy ++ v) := by
      simpa [List.append_assoc] using splitFirst_decomp hq
    rcases Nat.lt_or_ge u.length mid.length with hlt | hge
    · have hd' : mid ++ (fenceC ++ rest)
          = u ++ ('`' :: (['`', '`', 'p', 'y', 't', 'h', 'o', 'n'] ++ v)) := by
        have := hd2
        rw [show fencePy = '`' :: ['`', '`', 'p', 'y', 't', 'h', 'o', 'n'] from by decide]
          at this
        simpa [List.append_assoc] using this
      have := length_le_of_no_tick hmid hd'
      omega
    · have h1 : (mid ++ (fenceC ++ rest)).drop mid.length = fenceC ++ rest :=
        List.drop_left' rfl
      rw [hd2, List.drop_append_eq_append_drop,
        show mid.length - u.length = 0 from by omega, List.drop_zero] at h1
      have : containsSub fencePy (fenceC ++ rest) = true := by
        apply (containsSub_iff (show fencePy ≠ [] from by decide)).mpr
        exact ⟨u.drop mid.length, v, by rw [← h1]; simp⟩
      rw [hrest] at this
      simp at this

/-- Inside `mid ++ "```" ++ rest` with a backtick-free `mid`, the first
`"```"` occurrence is exactly the explicit one. -/
theorem splitFirst_fenceC_tail {mid rest : Str} (hmid : ∀ c ∈ mid, c ≠ '`') :
    splitFirst fenceC (mid ++ fenceC ++ rest) = some (mid, rest) := by
  apply splitFirst_eq_of_min (show fenceC ≠ [] from by decide) rfl
  intro u v huv
  have huv' : mid ++ (fenceC ++ rest) = u ++ ('`' :: (['`', '`'] ++ v)) := by
    have := huv
    rw [show fenceC = '`' :: ['`', '`'] from by decide] at this
    simpa [List.append_assoc] using this
  exact length_le_of_no_tick hmid huv'

/-- A two-element filter keeping only the second element. -/
theorem filter_pair {p : Str → Bool} {x y : Str} (hx : p x = false) (hy : p y = true) :
    List.filter p [x, y] = [y] := by
  simp [List.filter_cons, hx, hy]

/-- Claim C1 (amended): on a response of the shape
`a ++ "```python" ++ mid ++ "```" ++ rest` — no `"```"` before the opening
marker, no backtick inside the fenced body, no `"```python"` marker inside
the closing fence region — extraction returns exactly the text between the
fences, trimmed. -/
theorem c1_extract_text_between_fences (a mid rest : Str)
    (ha : containsSub fenceC a = false)
    (hmid : ∀ c ∈ mid, c ≠ '`')
    (hrest : containsSub fencePy (fenceC ++ rest) = false) :
    extract_code_from_response (a ++ fencePy ++ mid ++ fenceC ++ rest)
      = Except.ok (strip mid) := by
  have hC : fenceC ≠ [] := by decide
  have hPy : fencePy ≠ [] := by decide
  have hresp : a ++ fencePy ++ mid ++ fenceC ++ rest
      = a ++ fencePy ++ (mid ++ fenceC ++ rest) := by simp
  rw [hresp]
  have h1 : splitFirst fencePy (a ++ fencePy ++ (mid ++ fenceC ++ rest))
      = some (a, mid ++ fenceC ++ rest) := splitFirst_fencePy_at_boundary ha
  have h2 : splitFirst fencePy (mid ++ fenceC ++ rest) = none :=
    splitFirst_fencePy_tail_none hmid hrest
  have hsplit : pySplit fencePy (a ++ fencePy ++ (mid ++ fenceC ++ rest))
      = [a, mid ++ fenceC ++ rest] := by
    rw [pySplit_some hPy h1, pySplit_none h2]
  have hmem_tick : ('`' : Char) ∈ mid ++ fenceC ++ rest := by
    have : ('`' : Char) ∈ fenceC := by decide
    simp [this]
  have hstrip_ne : strip (mid ++ fenceC ++ rest) ≠ [] :=
    strip_ne_nil_of_mem hmem_tick (by decide)
  have hcontains : containsSub fenceC (mid ++ fenceC ++ rest) = true := by
    apply (containsSub_iff hC).mpr
    exact ⟨mid, rest, rfl⟩
  have pa : (!(strip a).isEmpty && containsSub fenceC a) = false := by
    rw [ha, Bool.and_false]
  have pt : (!(strip (mid ++ fenceC ++ rest)).isEmpty
      && containsSub fenceC (mid ++ fenceC ++ rest)) = true := by
    rw [hcontains, Bool.and_true]
    cases hb : (strip (mid ++ fenceC ++ rest)).isEmpty with
    | false => rfl
    | true => exact absurd (List.isEmpty_iff.mp hb) hstrip_ne
  have h3 : (pySplit fenceC (mid ++ fenceC ++ rest)).headD [] = mid := by
    rw [pySplit_headD hC, firstPre, splitFirst_fenceC_tail hmid]
  unfold extract_code_from_response
  rw [hsplit, filter_pair pa pt]
  show Except.ok (strip ((pySplit fenceC (mid ++ fenceC ++ rest)).headD []))
    = Except.ok (strip mid)
  rw [h3]

/-- Claim C1, original form, refuted: this response contains a fenced code
block whose body trims to `"y = 2"`, yet extraction returns the empty string,
because the first split segment containing `"```"` precedes the opening
marker. -/
theorem c1_counterexample :
    extract_code_from_response
        ((("```x").data) ++ fencePy ++ (("\ny = 2\n").data) ++ fenceC)
      = Except.ok []
    ∧ strip (("\ny = 2\n").data) = ("y = 2").data
    ∧ ([] : Str) ≠ ("y = 2").data :=
  ⟨rfl, rfl, by decide⟩

/-- Claim C1 (amended) at a concrete input. -/
theorem c1_witness :
    (containsSub fenceC (("Answer:\n").data) = false
      ∧ (∀ c ∈ (("\nx = 1\n").data), c ≠ '`')
      ∧ containsSub fencePy (fenceC ++ (("\nDone.").data)) = false)
    ∧ extract_code_from_response
        ((("Answer:\n").data) ++ fencePy ++ (("\nx = 1\n").data)
          ++ fenceC ++ (("\nDone.").data))
      = Except.ok (strip (("\nx = 1\n").data)) :=
  ⟨⟨by decide, by decide, by decide⟩,
    c1_extract_text_between_fences _ _ _ (by decide) (by decide) (by decide)⟩

/-- Claim C10: whenever extraction returns normally, its result contains no
`"```"` fence marker and has no leading or trailing whitespace. -/
theorem c10_extract_output_invariant (r out : Str)
    (h : extract_code_from_response r = Except.ok out) :
    containsSub fenceC out = false
      ∧ (∀ c, out.head? = some c → pyIsSpace c = false)
      ∧ (∀ c, out.getLast? = some c → pyIsSpace c = false) := by
  have hC : fenceC ≠ [] := by decide
  unfold extract_code_from_response at h
  cases hf : (pySplit fencePy r).filter
      (fun block => !(strip block).isEmpty && containsSub fenceC block) with
  | nil => rw [hf] at h; simp at h
  | cons b bs =>
    rw [hf] at h
    simp only [Except.ok.injEq] at h
    rw [← h, pySplit_headD hC]
    refine ⟨?_, ?_, ?_⟩
    · exact containsSub_strip hC (containsSub_firstPre hC)
    · intro c hc
      exact strip_head_not_space hc
    · intro c hc
      exact strip_getLast_not_space hc

/-- Claim C10 at a concrete input. -/
theorem c10_witness :
    containsSub fenceC (("x = 1").data) = false
      ∧ (∀ c, (("x = 1").data).head? = some c → pyIsSpace c = false)
      ∧ (∀ c, (("x = 1").data).getLast? = some c → pyIsSpace c = false) :=
  c10_extract_output_invariant (("```python\nx = 1\n```").data) (("x = 1").data) rfl

/-! ## Syntax validation (`CodeProject.validate_python_code`) -/

/-- Outcome of CPython's `ast.parse`, treated as an external oracle: success,
a `SyntaxError`, or any other exception (with its message). -/
inductive ParseOutcome
  | ok
  | syntaxError
  | otherError (msg : String)
deriving DecidableEq

/-- `CodeProject.validate_python_code`: `ast.parse` in a `try` block that
catches only `SyntaxError` (returning `False`); success returns `True`; any
other exception propagates. -/
def validate_python_code (parse : Str → ParseOutcome) (code : Str) : Except String Bool :=
  match parse code with
  | .ok => Except.ok true
  | .syntaxError => Except.ok false
  | .otherError m => Except.error m

/-- Claim C3: the validator returns `true` exactly on sources the parser
accepts and `false` exactly on sources raising a syntax error (in particular
`"x = 1"` validates and `"x = ("` does not), and only syntax errors are
converted to `false` — any non-syntax failure propagates uncaught. -/
theorem c3_validator_syntax_check (parse : Str → ParseOutcome) :
    (∀ code, validate_python_code parse code = Except.ok true ↔ parse code = .ok)
    ∧ (∀ code, validate_python_code parse code = Except.ok false
        ↔ parse code = .syntaxError)
    ∧ (∀ code m, validate_python_code parse code = Except.error m
        ↔ parse code = .otherError m)
    ∧ (parse (("x = 1").data) = .ok
        → validate_python_code parse (("x = 1").data) = Except.ok true)
    ∧ (parse (("x = (").data) = .syntaxError
        → validate_python_code parse (("x = (").data) = Except.ok false) := by
  refine ⟨?_, ?_, ?_, ?_, ?_⟩
  · intro code
    cases h : parse code <;> simp [validate_python_code, h]
  · intro code
    cases h : parse code <;> simp [validate_python_code, h]
  · intro code m
    cases h : parse code <;> simp [validate_python_code, h]
  · intro h
    simp [validate_python_code, h]
  · intro h
    simp [validate_python_code, h]

/-- Claim C3 at a concrete parser oracle. -/
theorem c3_witness :
    validate_python_code
        (fun s => if s = ("x = 1").data then ParseOutcome.ok else ParseOutcome.syntaxError)
        (("x = 1").data) = Except.ok true
    ∧ validate_python_code
        (fun s => if s = ("x = 1").data then ParseOutcome.ok else ParseOutcome.syntaxError)
        (("x = (").data) = Except.ok false :=
  ⟨(c3_validator_syntax_check _).2.2.2.1 (by decide),
    (c3_validator_syntax_check _).2.2.2.2 (by decide)⟩

/-! ## LLM client boundary and orchestration
(`CodeProject.get_llm_response`, `generate_project`, `ProjectManager`,
`read_requirements`, `main`) -/

/-- The three fixed roles of `CodeProject.get_llm_response`. -/
inductive Role
  | code_writer
  | code_reviewer
  | test_writer
deriving DecidableEq

/-- The fixed role-specific system prompts (`system_messages` dict). -/
def system_messages : Role → String
  | .code_writer =>
      "You are a skilled Python developer. Write clean, efficient, and well-documented code."
  | .code_reviewer =>
      "You are a code reviewer. Analyze code for best practices, potential issues, and improvements."
  | .test_writer =>
      "You are a test engineer. Write comprehensive unit tests and integration tests."

/-- A chat message: a role string paired with content. -/
structure Msg where
  role : String
  content : Str
deriving DecidableEq

/-- The two-message list `[system, user]` built by `get_llm_response`. -/
def mkMessages (role : Role) (prompt : Str) : List Msg :=
  [⟨"system", (system_messages role).data⟩, ⟨"user", prompt⟩]

/-- `CodeProject.get_llm_response`: builds the message pair and forwards to
the client (`gen` abstracts `OpenRouterLLM.generate_response`; an `error`
models the exception it may raise). -/
def get_llm_response (gen : List Msg → Except String Str) (role : Role)
    (prompt : Str) : Except String Str :=
  gen (mkMessages role prompt)

/-- Prompt of the code-generation call in `generate_project`. -/
def codePrompt (requirements : Str) : Str :=
  ("Generate Python code based on these requirements: ").data ++ requirements

/-- Prompt of the review call in `generate_project`. -/
def reviewPrompt (code : Str) : Str :=
  ("Review this Python code:\n```python\n").data ++ code ++ ("\n```").data

/-- Prompt of the test-generation call in `generate_project`. -/
def testPrompt (code : Str) : Str :=
  ("Write unit tests for this code:\n```python\n").data ++ code ++ ("\n```").data

/-- The workspace directory: whether `os.makedirs` has created it, and the
files it holds (name to contents). -/
structure Workspace where
  dirExists : Bool
  files : String → Option Str

/-- `CodeProject.write_code_to_file`: `os.makedirs(exist_ok=True)` then an
unconditional overwrite of the named file. -/
def write_code_to_file (ws : Workspace) (code : Str) (filename : String) : Workspace :=
  { dirExists := true
    files := fun n => if n = filename then some code else ws.files n }

/-- Observable side effects of a `generate_project` run, in order. -/
inductive Event
  | llmCall (role : Role)
  | fileWrite (filename : String)
deriving DecidableEq

/-- Result of a `generate_project` run: the ordered side effects, the final
workspace, and either the review text (printed on success) or the uncaught
exception's message. -/
structure GenOutcome where
  events : List Event
  ws : Workspace
  result : Except String Str

/-- `CodeProject.generate_project`: generate code, extract it, validate it
(raising `ValueError("Generated code is not valid Python")` on `False`),
write `main.py`, request a review, request tests, extract them, write
`test_main.py`.  Any raised exception aborts the remaining steps. -/
def generate_project (gen : List Msg → Except String Str)
    (parse : Str → ParseOutcome) (requirements : Str) (ws : Workspace) : GenOutcome :=
  match get_llm_response gen .code_writer (codePrompt requirements) with
  | Except.error m => ⟨[.llmCall .code_writer], ws, Except.error m⟩
  | Except.ok code_response =>
    match extract_code_from_response code_response with
    | Except.error m => ⟨[.llmCall .code_writer], ws, Except.error m⟩
    | Except.ok code =>
      match validate_python_code parse code with
      | Except.error m => ⟨[.llmCall .code_writer], ws, Except.error m⟩
      | Except.ok false =>
        ⟨[.llmCall .code_writer], ws, Except.error "Generated code is not valid Python"⟩
      | Except.ok true =>
        let ws1 := write_code_to_file ws code "main.py"
        match get_llm_response gen .code_reviewer (reviewPrompt code) with
        | Except.error m =>
          ⟨[.llmCall .code_writer, .fileWrite "main.py", .llmCall .code_reviewer],
            ws1, Except.error m⟩
        | Except.ok review =>
          match get_llm_response gen .test_writer (testPrompt code) with
          | Except.error m =>
            ⟨[.llmCall .code_writer, .fileWrite "main.py", .llmCall .code_reviewer,
              .llmCall .test_writer], ws1, Except.error m⟩
          | Except.ok test_response =>
            match extract_code_from_response test_response with
            | Except.error m =>
              ⟨[.llmCall .code_writer, .fileWrite "main.py", .llmCall .code_reviewer,
                .llmCall .test_writer], ws1, Except.error m⟩
            | Except.ok test_code =>
              ⟨[.llmCall .code_writer, .fileWrite "main.py", .llmCall .code_reviewer,
                .llmCall .test_writer, .fileWrite "test_main.py"],
                write_code_to_file ws1 test_code "test_main.py", Except.ok review⟩

/-- `ProjectManager.create_project`: the single try/except boundary; every
exception from the pipeline is caught and printed, never re-raised
(`run_tests` additionally catches its own exceptions). -/
def create_project (gen : List Msg → Except String Str) (parse : Str → ParseOutcome)
    (requirements : Str) (ws : Workspace) : Workspace × Option String :=
  match generate_project gen parse requirements ws with
  | ⟨_, ws2, Except.ok _⟩ => (ws2, none)
  | ⟨_, ws2, Except.error m⟩ => (ws2, some ("Error creating project: " ++ m))

/-- `read_requirements`: file contents when `os.path.isfile` holds, the
argument itself otherwise.  `fileSystem` maps a path to its contents exactly
when the path is an existing file. -/
def read_requirements (fileSystem : Str → Option Str) (requirements_path : Str) : Str :=
  match fileSystem requirements_path with
  | some content => content
  | none => requirements_path

/-- Python truthiness of an optional string (`None` and `""` are falsy). -/
def pyTruthy : Option String → Bool
  | none => false
  | some s => !(s == "")

/-- Python's `a or b` on optional strings. -/
def pyOr (a b : Option String) : Option String :=
  if pyTruthy a then a else b

/-- Result of a `main` run: `sys.exit(1)` before any client existed, or a
completed run with the final workspace and the printed error, if any. -/
inductive MainResult
  | credentialError (exitCode : Nat)
  | completed (ws : Workspace) (printedError : Option String)

/-- `main`: resolve the credential (`args.api_key or
os.getenv('OPENROUTER_API_KEY')`), exit with status 1 when it is falsy,
otherwise read the requirements and run the manager. -/
def mainRun (apiKeyFlag envApiKey : Option String)
    (fileSystem : Str → Option Str) (requirementsArg : Str)
    (gen : List Msg → Except String Str) (parse : Str → ParseOutcome)
    (ws : Workspace) : MainResult :=
  let api_key := pyOr apiKeyFlag envApiKey
  if !(pyTruthy api_key) then MainResult.credentialError 1
  else
    let requirements := read_requirements fileSystem requirementsArg
    let r := create_project gen parse requirements ws
    MainResult.completed r.1 r.2

/-- The process exit status of a `main` run. -/
def exitCode : MainResult → Nat
  | .credentialError c => c
  | .completed _ _ => 0

/-- Claim C4: with the `--api-key` flag absent and the environment variable
unset or empty, `main` exits with status 1; the conclusion holds for every
client and parser oracle, so no client is constructed and no network call is
made first. -/
theorem c4_missing_credential_exits (envApiKey : Option String)
    (fileSystem : Str → Option Str) (requirementsArg : Str)
    (gen : List Msg → Except String Str) (parse : Str → ParseOutcome) (ws : Workspace)
    (henv : envApiKey = none ∨ envApiKey = some "") :
    mainRun none envApiKey fileSystem requirementsArg gen parse ws
      = MainResult.credentialError 1 := by
  rcases henv with h | h <;> subst h <;> rfl

/-- Claim C4 at a concrete environment. -/
theorem c4_witness :
    mainRun none none (fun _ => none) [] (fun _ => Except.error "no network")
      (fun _ => ParseOutcome.ok) ⟨false, fun _ => none⟩
      = MainResult.credentialError 1 :=
  c4_missing_credential_exits none _ _ _ _ _ (Or.inl rfl)

/-- Claim C5: the process exits non-zero exactly when no credential is
resolvable; whenever one is resolvable, every failure of the pipeline is
caught by `ProjectManager.create_project`, and the run completes with exit
status 0 for every client and parser oracle. -/
theorem c5_exit_nonzero_iff_missing_credential (apiKeyFlag envApiKey : Option String)
    (fileSystem : Str → Option Str) (requirementsArg : Str)
    (gen : List Msg → Except String Str) (parse : Str → ParseOutcome) (ws : Workspace) :
    (exitCode (mainRun apiKeyFlag envApiKey fileSystem requirementsArg gen parse ws) ≠ 0
      ↔ pyTruthy (pyOr apiKeyFlag envApiKey) = false)
    ∧ (pyTruthy (pyOr apiKeyFlag envApiKey) = true
      → ∃ ws2 err, mainRun apiKeyFlag envApiKey fileSystem requirementsArg gen parse ws
          = MainResult.completed ws2 err) := by
  cases h : pyTruthy (pyOr apiKeyFlag envApiKey) with
  | false =>
    have hm : mainRun apiKeyFlag envApiKey fileSystem requirementsArg gen parse ws
        = MainResult.credentialError 1 := by
      simp only [mainRun]
      rw [h]
      rfl
    rw [hm]
    exact ⟨⟨fun _ => rfl, fun _ => by simp [exitCode]⟩,
      fun htrue => absurd htrue (by simp)⟩
  | true =>
    have hm : mainRun apiKeyFlag envApiKey fileSystem requirementsArg gen parse ws
        = MainResult.completed
            (create_project gen parse (read_requirements fileSystem requirementsArg) ws).1
            (create_project gen parse (read_requirements fileSystem requirementsArg) ws).2 := by
      simp only [mainRun]
      rw [h]
      rfl
    rw [hm]
    exact ⟨⟨fun hne => absurd rfl hne, fun hfalse => absurd hfalse (by simp)⟩,
      fun _ => ⟨_, _, rfl⟩⟩

/-- Claim C5 at a concrete input: a resolvable credential completes the run
even though every client call fails. -/
theorem c5_witness :
    ∃ ws2 err, mainRun (some "sk-test") none (fun _ => none) []
        (fun _ => Except.error "connection refused") (fun _ => ParseOutcome.ok)
        ⟨false, fun _ => none⟩ = MainResult.completed ws2 err :=
  (c5_exit_nonzero_iff_missing_credential (some "sk-test") none _ _ _ _ _).2 (by decide)

/-- Claim C9: `read_requirements` returns the file's contents when the
argument names an existing file, and the argument itself otherwise. -/
theorem c9_read_requirements_file_or_inline (fileSystem : Str → Option Str) (p : Str) :
    (∀ content, fileSystem p = some content → read_requirements fileSystem p = content)
    ∧ (fileSystem p = none → read_requirements fileSystem p = p) := by
  constructor
  · intro content h
    simp [read_requirements, h]
  · intro h
    simp [read_requirements, h]

/-- Claim C9 at a concrete filesystem: one file path, one inline string. -/
theorem c9_witness :
    read_requirements
        (fun q => if q = ("reqs.txt").data then some (("build a CLI").data) else none)
        (("reqs.txt").data) = ("build a CLI").data
    ∧ read_requirements
        (fun q => if q = ("reqs.txt").data then some (("build a CLI").data) else none)
        (("just do it inline").data) = ("just do it inline").data :=
  ⟨(c9_read_requirements_file_or_inline _ _).1 _ (by decide),
    (c9_read_requirements_file_or_inline _ _).2 (by decide)⟩

/-- Claim C6: `generate_project` performs its steps in the fixed order
generate → extract → validate → write `main.py` → review → generate tests →
extract → write `test_main.py`; when validation rejects the extracted code it
raises `ValueError("Generated code is not valid Python")` and aborts with no
file written and no further LLM call. -/
theorem c6_pipeline_order_and_abort (gen : List Msg → Except String Str)
    (parse : Str → ParseOutcome) (requirements : Str) (ws : Workspace) :
    (∀ r1 code review r3 test_code,
      gen (mkMessages .code_writer (codePrompt requirements)) = Except.ok r1 →
      extract_code_from_response r1 = Except.ok code →
      parse code = ParseOutcome.ok →
      gen (mkMessages .code_reviewer (reviewPrompt code)) = Except.ok review →
      gen (mkMessages .test_writer (testPrompt code)) = Except.ok r3 →
      extract_code_from_response r3 = Except.ok test_code →
      (generate_project gen parse requirements ws).events
        = [.llmCall .code_writer, .fileWrite "main.py", .llmCall .code_reviewer,
           .llmCall .test_writer, .fileWrite "test_main.py"])
    ∧ (∀ r1 code,
      gen (mkMessages .code_writer (codePrompt requirements)) = Except.ok r1 →
      extract_code_from_response r1 = Except.ok code →
      parse code = ParseOutcome.syntaxError →
      generate_project gen parse requirements ws
        = ⟨[.llmCall .code_writer], ws,
            Except.error "Generated code is not valid Python"⟩) := by
  constructor
  · intro r1 code review r3 test_code h1 h2 h3 h4 h5 h6
    simp only [generate_project, get_llm_response, h1, h2, validate_python_code, h3,
      h4, h5, h6]
  · intro r1 code h1 h2 h3
    simp only [generate_project, get_llm_response, h1, h2, validate_python_code, h3]

/-- Claim C6 at concrete oracles: event order on success, and the abort shape
when the parser reports a syntax error. -/
theorem c6_witness :
    ((generate_project (fun _ => Except.ok (("```python\nx = 1\n```").data))
        (fun _ => ParseOutcome.ok) [] ⟨false, fun _ => none⟩).events
      = [Event.llmCall Role.code_writer, Event.fileWrite "main.py",
         Event.llmCall Role.code_reviewer, Event.llmCall Role.test_writer,
         Event.fileWrite "test_main.py"])
    ∧ generate_project (fun _ => Except.ok (("```python\nx = 1\n```").data))
        (fun _ => ParseOutcome.syntaxError) [] ⟨false, fun _ => none⟩
      = ⟨[Event.llmCall Role.code_writer], ⟨false, fun _ => none⟩,
          Except.error "Generated code is not valid Python"⟩ :=
  ⟨(c6_pipeline_order_and_abort (fun _ => Except.ok (("```python\nx = 1\n```").data))
      (fun _ => ParseOutcome.ok) [] ⟨false, fun _ => none⟩).1
      (("```python\nx = 1\n```").data) (("x = 1").data)
      (("```python\nx = 1\n```").data) (("```python\nx = 1\n```").data)
      (("x = 1").data) rfl rfl rfl rfl rfl rfl,
    (c6_pipeline_order_and_abort (fun _ => Except.ok (("```python\nx = 1\n```").data))
      (fun _ => ParseOutcome.syntaxError) [] ⟨false, fun _ => none⟩).2
      (("```python\nx = 1\n```").data) (("x = 1").data) rfl rfl rfl⟩

/-- Claim C7: on a fully successful run the review is only returned for
printing, the workspace directory exists, `main.py` and `test_main.py` hold
exactly the extracted (trimmed) code of the corresponding responses —
overwritten unconditionally — no other file is touched, and from an empty
workspace exactly these two files exist afterwards. -/
theorem c7_workspace_two_files (gen : List Msg → Except String Str)
    (parse : Str → ParseOutcome) (requirements : Str) (ws : Workspace)
    (r1 code review r3 test_code : Str)
    (h1 : gen (mkMessages .code_writer (codePrompt requirements)) = Except.ok r1)
    (h2 : extract_code_from_response r1 = Except.ok code)
    (h3 : parse code = ParseOutcome.ok)
    (h4 : gen (mkMessages .code_reviewer (reviewPrompt code)) = Except.ok review)
    (h5 : gen (mkMessages .test_writer (testPrompt code)) = Except.ok r3)
    (h6 : extract_code_from_response r3 = Except.ok test_code) :
    (generate_project gen parse requirements ws).result = Except.ok review
    ∧ (generate_project gen parse requirements ws).ws.dirExists = true
    ∧ (generate_project gen parse requirements ws).ws.files "main.py" = some code
    ∧ (generate_project gen parse requirements ws).ws.files "test_main.py" = some test_code
    ∧ (∀ n, n ≠ "main.py" → n ≠ "test_main.py" →
        (generate_project gen parse requirements ws).ws.files n = ws.files n)
    ∧ ((∀ n, ws.files n = none) → ∀ n,
        ((generate_project gen parse requirements ws).ws.files n).isSome = true
          ↔ (n = "main.py" ∨ n = "test_main.py")) := by
  have hg : generate_project gen parse requirements ws
      = ⟨[.llmCall .code_writer, .fileWrite "main.py", .llmCall .code_reviewer,
          .llmCall .test_writer, .fileWrite "test_main.py"],
         write_code_to_file (write_code_to_file ws code "main.py") test_code "test_main.py",
         Except.ok review⟩ := by
    simp only [generate_project, get_llm_response, h1, h2, validate_python_code, h3,
      h4, h5, h6]
  rw [hg]
  refine ⟨rfl, rfl, ?_, ?_, ?_, ?_⟩
  · simp [write_code_to_file]
  · simp [write_code_to_file]
  · intro n hn1 hn2
    simp [write_code_to_file, hn1, hn2]
  · intro hws n
    by_cases hn2 : n = "test_main.py"
    · simp [write_code_to_file, hn2]
    · by_cases hn1 : n = "main.py"
      · simp [write_code_to_file, hn1, hn2]
      · simp [write_code_to_file, hn1, hn2, hws n]

/-- Claim C7 at concrete oracles: the two files hold the extracted code. -/
theorem c7_witness :
    (generate_project (fun _ => Except.ok (("```python\nx = 1\n```").data))
        (fun _ => ParseOutcome.ok) [] ⟨false, fun _ => none⟩).ws.files "main.py"
      = some (("x = 1").data)
    ∧ (generate_project (fun _ => Except.ok (("```python\nx = 1\n```").data))
        (fun _ => ParseOutcome.ok) [] ⟨false, fun _ => none⟩).ws.files "test_main.py"
      = some (("x = 1").data) :=
  ⟨(c7_workspace_two_files (fun _ => Except.ok (("```python\nx = 1\n```").data))
      (fun _ => ParseOutcome.ok) [] ⟨false, fun _ => none⟩
      (("```python\nx = 1\n```").data) (("x = 1").data)
      (("```python\nx = 1\n```").data) (("```python\nx = 1\n```").data)
      (("x = 1").data) rfl rfl rfl rfl rfl rfl).2.2.1,
    (c7_workspace_two_files (fun _ => Except.ok (("```python\nx = 1\n```").data))
      (fun _ => ParseOutcome.ok) [] ⟨false, fun _ => none⟩
      (("```python\nx = 1\n```").data) (("x = 1").data)
      (("```python\nx = 1\n```").data) (("```python\nx = 1\n```").data)
      (("x = 1").data) rfl rfl rfl rfl rfl rfl).2.2.2.1⟩

/-! ## LLM client internals (`OpenRouterLLM.generate_response`) -/

/-- A JSON value, as far as the client's response handling inspects it. -/
inductive Jv
  | null
  | str (s : String)
  | num (n : Int)
  | arr (elems : List Jv)
  | obj (fields : List (String × Jv))

/-- Python `body[key]` on a parsed JSON value: `KeyError` on a missing key,
`TypeError` when the value is not an object. -/
def Jv.getField : Jv → String → Except String Jv
  | .obj fields, key =>
    match fields.find? (fun p => p.1 == key) with
    | some p => Except.ok p.2
    | none => Except.error ("KeyError: " ++ key)
  | _, key => Except.error ("TypeError: value is not subscriptable by " ++ key)

/-- Python `body[i]` on a parsed JSON value: `IndexError` out of range,
`TypeError` when the value is not a list. -/
def Jv.getIndex : Jv → Nat → Except String Jv
  | .arr elems, i =>
    match elems.get? i with
    | some v => Except.ok v
    | none => Except.error "IndexError: list index out of range"
  | _, _ => Except.error "TypeError: value is not a list"

/-- The navigation `response.json()['choices'][0]['message']['content']`. -/
def extractContent (body : Jv) : Except String Jv := do
  let choices ← body.getField "choices"
  let first ← choices.getIndex 0
  let message ← first.getField "message"
  message.getField "content"

/-- An HTTP response as the client observes it: the final status code and the
result of `response.json()` (an error when the body is not valid JSON). -/
structure HttpResponse where
  status : Nat
  body : Except String Jv

/-- `requests.Response.raise_for_status()`: raises `HTTPError` exactly for
status codes in `[400, 600)`. -/
def raise_for_status (r : HttpResponse) : Except String Unit :=
  if 400 ≤ r.status ∧ r.status < 600 then
    Except.error ("HTTPError: " ++ toString r.status)
  else Except.ok ()

/-- `OpenRouterLLM.generate_response`: POST the messages (the transport is
the oracle `post`), check the status, navigate the body to the first choice's
message content; any exception in the `try` block is re-raised as
`Exception("Error generating response: " + str(e))`. -/
def generate_response (post : List Msg → Except String HttpResponse)
    (messages : List Msg) : Except String Jv :=
  match post messages with
  | Except.error e => Except.error ("Error generating response: " ++ e)
  | Except.ok r =>
    match raise_for_status r with
    | Except.error e => Except.error ("Error generating response: " ++ e)
    | Except.ok _ =>
      match r.body with
      | Except.error e => Except.error ("Error generating response: " ++ e)
      | Except.ok body =>
        match extractContent body with
        | Except.error e => Except.error ("Error generating response: " ++ e)
        | Except.ok v => Except.ok v

/-- Claim C8 (amended): `generate_response` returns the first choice's
message content on success; a transport error, a 4xx/5xx status, a
non-JSON body, or a missing `choices`/`message`/`content` field is raised as
one generic exception wrapping the underlying message.  (The code only
treats 4xx/5xx as status failures, not every non-2xx status.) -/
theorem c8_client_response_handling (post : List Msg → Except String HttpResponse)
    (messages : List Msg) :
    (∀ m, post messages = Except.error m →
      generate_response post messages
        = Except.error ("Error generating response: " ++ m))
    ∧ (∀ s b, post messages = Except.ok ⟨s, b⟩ → 400 ≤ s → s < 600 →
      generate_response post messages
        = Except.error ("Error generating response: " ++ ("HTTPError: " ++ toString s)))
    ∧ (∀ s m, post messages = Except.ok ⟨s, Except.error m⟩ → ¬(400 ≤ s ∧ s < 600) →
      generate_response post messages
        = Except.error ("Error generating response: " ++ m))
    ∧ (∀ s b v, post messages = Except.ok ⟨s, Except.ok b⟩ → ¬(400 ≤ s ∧ s < 600) →
      extractContent b = Except.ok v →
      generate_response post messages = Except.ok v)
    ∧ (∀ s b m, post messages = Except.ok ⟨s, Except.ok b⟩ → ¬(400 ≤ s ∧ s < 600) →
      extractContent b = Except.error m →
      generate_response post messages
        = Except.error ("Error generating response: " ++ m)) := by
  refine ⟨?_, ?_, ?_, ?_, ?_⟩
  · intro m h
    simp only [generate_response, h]
  · intro s b h hlo hhi
    simp only [generate_response, h]
    rw [show raise_for_status ⟨s, b⟩ = Except.error ("HTTPError: " ++ toString s) from
      if_pos ⟨hlo, hhi⟩]
  · intro s m h hs
    simp only [generate_response, h]
    rw [show raise_for_status ⟨s, Except.error m⟩ = Except.ok () from if_neg hs]
  · intro s b v h hs hv
    simp only [generate_response, h]
    rw [show raise_for_status ⟨s, Except.ok b⟩ = Except.ok () from if_neg hs]
    show (match extractContent b with
      | Except.error e => Except.error ("Error generating response: " ++ e)
      | Except.ok v => Except.ok v) = Except.ok v
    rw [hv]
  · intro s b m h hs hm
    simp only [generate_response, h]
    rw [show raise_for_status ⟨s, Except.ok b⟩ = Except.ok () from if_neg hs]
    show (match extractContent b with
      | Except.error e => Except.error ("Error generating response: " ++ e)
      | Except.ok v => Except.ok v)
      = Except.error ("Error generating response: " ++ m)
    rw [hm]

/-- Claim C8, original form, refuted: a 304 response — not a 2xx status — is
not raised as an error; with a well-formed body the content is returned. -/
theorem c8_counterexample :
    (304 < 200 ∨ 300 ≤ 304)
    ∧ generate_response
        (fun _ => Except.ok ⟨304,
          Except.ok (Jv.obj [("choices",
            Jv.arr [Jv.obj [("message", Jv.obj [("content", Jv.str "hello")])]])])⟩)
        [] = Except.ok (Jv.str "hello") :=
  ⟨Or.inr (by omega), rfl⟩

/-- Claim C8 (amended) at concrete oracles: a transport failure is wrapped in
the generic exception message. -/
theorem c8_witness :
    generate_response (fun _ => Except.error "connection timed out") []
      = Except.error ("Error generating response: " ++ "connection timed out") :=
  (c8_client_response_handling (fun _ => Except.error "connection timed out") []).1
    "connection timed out" rfl

end AutoGen
